import Mathlib

/-!
Verification of the hover/gesture state machine and DOM-element resolution
heuristic of the react-component-inspector package.

The development shallowly embeds the relevant TypeScript sources:
  * `src/autoInspection.ts`   — element info extraction, metadata parsing,
    the deterministic id hash, the two-pass resolution walker and the
    mouse-move handler;
  * `src/InspectionContext.tsx` (the ref-based, hold-to-lock variant) —
    the keyboard state machine and the session setter;
  * `src/inspection.ts` — `generateComponentId`, `formatPropsSignature`,
    `getNextInstanceIndex` and the instance-counter map;
  * `src/useInspectionMetadata.ts` — the metadata record built by the hook.

DOM elements are modelled as a rose tree of element data; an element is
addressed by its path of child indices, stored leaf-first (head = index of
the element in its parent, `[]` = `document.body`).  JavaScript numbers
reachable here are integers or `NaN`, modelled by `JsNum`; 32-bit overflow
in the hash is made explicit with `toInt32`.
-/

/-- JavaScript `\s` whitespace (the ASCII part, which is all the sources use). -/
def isJsWs (c : Char) : Bool :=
  c == ' ' || c == '\t' || c == '\n' || c == '\r' || c == '\x0b' || c == '\x0c'

/-- ASCII lower-casing of one character, the effect of `String.prototype.toLowerCase`
on the ASCII strings handled here. -/
def asciiLower (c : Char) : Char :=
  if 'A' ≤ c && c ≤ 'Z' then Char.ofNat (c.toNat + 32) else c

/-- ASCII upper-casing of one character (`String.prototype.toUpperCase`). -/
def asciiUpper (c : Char) : Char :=
  if 'a' ≤ c && c ≤ 'z' then Char.ofNat (c.toNat - 32) else c

/-- `s.toLowerCase()`. -/
def jsToLowerCase (s : String) : String := ⟨s.data.map asciiLower⟩

/-- `s.toUpperCase()`. -/
def jsToUpperCase (s : String) : String := ⟨s.data.map asciiUpper⟩

/-- Worker for `replace(/\s+/g, rep)`: every maximal whitespace run becomes the
single character `rep`.  The boolean argument records whether the scan is
currently inside a whitespace run. -/
def squashWs (rep : Char) : List Char → Bool → List Char
  | [], _ => []
  | c :: cs, inRun =>
    if isJsWs c then
      if inRun then squashWs rep cs true
      else rep :: squashWs rep cs true
    else c :: squashWs rep cs false

/-- `s.replace(/\s+/g, "-")`. -/
def jsReplaceWsWithHyphen (s : String) : String := ⟨squashWs '-' s.data false⟩

/-- `s.replace(/\s+/g, " ")`. -/
def jsReplaceWsWithSpace (s : String) : String := ⟨squashWs ' ' s.data false⟩

/-- Worker for `split(/\s+/)`: fields between maximal whitespace runs, with the
empty leading field JavaScript produces when the string starts with whitespace
and the empty trailing field when it ends with one. -/
def splitWsAux : List Char → List Char → Bool → List (List Char)
  | [], acc, _ => [acc.reverse]
  | c :: cs, acc, inRun =>
    if isJsWs c then
      if inRun then splitWsAux cs acc true
      else acc.reverse :: splitWsAux cs [] true
    else splitWsAux cs (c :: acc) false

/-- `s.split(/\s+/)`. -/
def jsSplitWs (s : String) : List String :=
  (splitWsAux s.data [] false).map (fun l => ⟨l⟩)

/-- `s.trim()` (the ASCII whitespace part). -/
def jsTrim (s : String) : String :=
  ⟨((s.data.dropWhile isJsWs).reverse.dropWhile isJsWs).reverse⟩

/-- A JavaScript number as it occurs in this code base: an integer or `NaN`. -/
inductive JsNum where
  | nan : JsNum
  | int : Int → JsNum
deriving DecidableEq, Repr

/-- `parseInt(s, 10)`: skip leading whitespace, read an optional sign and then
the longest digit prefix; `NaN` when no digit is found. -/
def jsParseIntBase10 (s : String) : JsNum :=
  let t := s.data.dropWhile isJsWs
  let (sign, rest) :=
    match t with
    | '-' :: r => ((-1 : Int), r)
    | '+' :: r => ((1 : Int), r)
    | r => ((1 : Int), r)
  let digits := rest.takeWhile Char.isDigit
  if digits.isEmpty then JsNum.nan
  else JsNum.int (sign * (digits.foldl (fun n c => n * 10 + (c.toNat - 48)) 0 : Nat))

/-- Wrap an integer to the signed 32-bit range, the effect of JavaScript's
`x & x` / `<<` coercions (`ToInt32`). -/
def toInt32 (n : Int) : Int := ((n + 2 ^ 31) % 2 ^ 32) - 2 ^ 31

/-- One iteration of the id hash loop:
`hash = ((hash << 5) - hash) + char; hash = hash & hash;`.
The shift operates on 32 bits, the subtraction and addition are exact, and
the final `& hash` wraps the result back to 32 bits. -/
def jsHashStep (h : Int) (c : Nat) : Int := toInt32 (toInt32 (h * 32) - h + c)

/-- The full hash of a path string, starting from `0` and consuming each
`charCodeAt` value in order. -/
def jsHashString (s : String) : Int := s.data.foldl (fun h c => jsHashStep h c.toNat) 0

/-- Digit character for `Number.prototype.toString(36)`: `0`–`9` then `a`–`z`. -/
def base36Char (n : Nat) : Char :=
  if n < 10 then Char.ofNat (48 + n) else Char.ofNat (87 + n)

/-- Digit list worker for `n.toString(36)`, structurally recursive on a fuel
bound so that it reduces inside the kernel; `fuel ≥ n + 1` always suffices
because the dividend shrinks by a factor of 36 per step. -/
def base36DigitsAux (fuel n : Nat) : List Char :=
  match fuel with
  | 0 => []
  | fuel' + 1 =>
    if n < 36 then [base36Char n]
    else base36DigitsAux fuel' (n / 36) ++ [base36Char (n % 36)]

/-- Digit list of `n.toString(36)`. -/
def base36Digits (n : Nat) : List Char := base36DigitsAux (n + 1) n

/-- `Math.abs(hash).toString(36).substr(0, 6)`. -/
def hashToShortBase36 (hash : Int) : String := ⟨(base36Digits hash.natAbs).take 6⟩

/-- `\w` word characters. -/
def isWordChar (c : Char) : Bool := c.isAlphanum || c == '_'

/-- Attempt to match `/Mui(\w+)/` at the head of the character list, returning
the capture group. -/
def muiMatchHere : List Char → Option String
  | 'M' :: 'u' :: 'i' :: rest =>
    let w := rest.takeWhile isWordChar
    if w.isEmpty then none else some ⟨w⟩
  | _ => none

/-- First match of `/Mui(\w+)/` anywhere in the list (`String.prototype.match`
scans left to right). -/
def muiMatchScan : List Char → Option String
  | [] => none
  | c :: cs =>
    match muiMatchHere (c :: cs) with
    | some r => some r
    | none => muiMatchScan cs

/-- `s.includes("Mui")`. -/
def containsMui : List Char → Bool
  | [] => false
  | c :: cs => List.isPrefixOf ['M', 'u', 'i'] (c :: cs) || containsMui cs

/-- Truthiness of a `getAttribute` result: `null` and `""` are falsy. -/
def jsTruthyStr : Option String → Bool
  | none => false
  | some s => s != ""

/-- `a || undefined` for a `getAttribute` result. -/
def jsStrOrUndefined : Option String → Option String
  | none => none
  | some s => if s == "" then none else some s

/-- `a || d` for a `getAttribute` result and a default string. -/
def jsStrOrElse (o : Option String) (d : String) : String :=
  match o with
  | none => d
  | some s => if s == "" then d else s

/-- `a || b || undefined` over two `getAttribute` results. -/
def jsStrOrStrOrUndefined (a b : Option String) : Option String :=
  if jsTruthyStr a then a else if jsTruthyStr b then b else none

/-- The observable data of one DOM element: tag name (as the DOM reports it,
upper case for HTML elements), the `id` and `className` properties, the text
content, the attribute map read by `getAttribute`, and the rendered size
reported by `getBoundingClientRect` (whole pixels suffice for this code). -/
structure ElementData where
  tagName : String
  id : String
  className : String
  textContent : String
  attrs : List (String × String)
  rectWidth : Nat
  rectHeight : Nat
deriving DecidableEq, Repr

/-- `element.getAttribute(name)`. -/
def getAttr (e : ElementData) (name : String) : Option String := e.attrs.lookup name

/-- A DOM subtree rooted at `document.body`. -/
inductive DomTree where
  | node (info : ElementData) (kids : List DomTree)

/-- The element data at the root of a subtree. -/
def DomTree.info : DomTree → ElementData
  | .node d _ => d

/-- The child list of a subtree. -/
def DomTree.kids : DomTree → List DomTree
  | .node _ k => k

/-- An element address: child indices from the element up to the body
(head = index of the element among its parent's children, `[]` = body). -/
abbrev DomPath := List Nat

/-- Follow root-to-leaf child indices. -/
def descend (t : DomTree) : List Nat → Option DomTree
  | [] => some t
  | i :: rest =>
    match t.kids.get? i with
    | some c => descend c rest
    | none => none

/-- The subtree at a leaf-first path; `none` models an element that is not
attached under `document.body`. -/
def elemAt (doc : DomTree) (p : DomPath) : Option DomTree := descend doc p.reverse

/-- The element data at a leaf-first path. -/
def dataAt (doc : DomTree) (p : DomPath) : Option ElementData := (elemAt doc p).map DomTree.info

/-- The `ComponentMetadata` interface of `InspectionContext.tsx`. -/
structure ComponentMetadata where
  componentName : String
  componentId : String
  variant : Option String
  role : Option String
  usagePath : String
  instanceIndex : JsNum
  propsSignature : String
  sourceFile : String
deriving DecidableEq, Repr

/-- The record returned by `extractElementInfo` in `autoInspection.ts`. -/
structure ElementInfo where
  tagName : String
  className : String
  id : String
  textPreview : String
  muiComponent : Option String
deriving DecidableEq, Repr

/-- `extractElementInfo` of `autoInspection.ts`: lower-cased tag, className as a
string, id, a 50-character whitespace-collapsed text preview, and the capture
of the first `/Mui(\w+)/` match when the class string contains `"Mui"`. -/
def extractElementInfo (e : ElementData) : ElementInfo :=
  let tagName := jsToLowerCase e.tagName
  let className := e.className
  let id := e.id
  let textPreview := jsReplaceWsWithSpace ⟨(jsTrim e.textContent).data.take 50⟩
  let muiComponent :=
    if className != "" && containsMui className.data then muiMatchScan className.data
    else none
  { tagName, className, id, textPreview, muiComponent }

/-- The explicit branch of `parseInspectionMetadata`: the metadata read from the
`data-inspection-*` marker attributes of an element whose name and id markers
are both present and non-empty. -/
def explicitMetaOf (componentName componentId : String) (e : ElementData) : ComponentMetadata :=
  { componentName
    componentId
    variant := jsStrOrUndefined (getAttr e "data-inspection-variant")
    role := jsStrOrUndefined (getAttr e "data-inspection-role")
    usagePath := jsStrOrElse (getAttr e "data-inspection-usage-path") "Unknown"
    instanceIndex := jsParseIntBase10 (jsStrOrElse (getAttr e "data-inspection-instance") "0")
    propsSignature := jsStrOrElse (getAttr e "data-inspection-props") "default"
    sourceFile := jsStrOrElse (getAttr e "data-inspection-file") "Unknown" }

/-- One `tag[index]` segment of the deterministic-id path: the element's
lower-cased tag followed by its index among the same-tag children of its
parent (the `siblings.indexOf(current)` of the source, expressed positionally
since `indexOf` compares object identity). -/
def tagIndexSegment (doc : DomTree) (i : Nat) (rest : DomPath) : String :=
  match dataAt doc (i :: rest), elemAt doc rest with
  | some e, some parentNode =>
    let currentTagName := jsToLowerCase e.tagName
    let index :=
      ((parentNode.kids.take i).filter
        (fun child => jsToLowerCase child.info.tagName == currentTagName)).length
    currentTagName ++ "[" ++ toString index ++ "]"
  | some e, none => jsToLowerCase e.tagName
  | none, _ => ""

/-- The segments collected by the `while` walk of `generateDeterministicId`,
most-ancestral first (the loop `unshift`s while walking up and stops at
`document.body`).  The dangling cases of `tagIndexSegment` are unreachable for
an attached element. -/
def detIdSegments (doc : DomTree) : DomPath → List String
  | [] => []
  | i :: rest => detIdSegments doc rest ++ [tagIndexSegment doc i rest]

/-- `path.join('>')` of the deterministic-id walk. -/
def detIdPathString (doc : DomTree) (p : DomPath) : String :=
  String.intercalate ">" (detIdSegments doc p)

/-- `generateDeterministicId` of `autoInspection.ts`: the element's DOM id when
present, else the lower-cased tag joined to the first six base-36 digits of the
absolute value of the 32-bit hash of the tag-indexed ancestor path. -/
def generateDeterministicId (doc : DomTree) (p : DomPath) (infoId tagName : String) : String :=
  if infoId != "" then infoId
  else tagName ++ "-" ++ hashToShortBase36 (jsHashString (detIdPathString doc p))

/-- The inferred branch of `parseInspectionMetadata`: name from the MUI class
token or the upper-cased tag, decorated with the id or the first meaningful
class; deterministic id; props signature from id and class count. -/
def inferredMetaOf (doc : DomTree) (p : DomPath) (e : ElementData) : ComponentMetadata :=
  let info := extractElementInfo e
  let baseName :=
    match info.muiComponent with
    | some m => m
    | none => jsToUpperCase info.tagName
  let inferredName :=
    if info.id != "" then baseName ++ " (" ++ info.id ++ ")"
    else if info.className != "" then
      let classes := (jsSplitWs info.className).filter
        (fun c => c != "" && !(List.isPrefixOf ['M', 'u', 'i'] c.data) && c.length > 2)
      match classes with
      | [] => baseName
      | c0 :: _ => baseName ++ " ." ++ c0
    else baseName
  let inferredId := generateDeterministicId doc p info.id info.tagName
  let props : List String :=
    (if info.id != "" then ["id=" ++ info.id] else []) ++
    (if info.className != "" then ["classes=" ++ toString (jsSplitWs info.className).length] else [])
  let propsSignature := if props.length > 0 then String.intercalate ", " props else "default"
  { componentName := inferredName
    componentId := inferredId
    variant := info.muiComponent.map jsToLowerCase
    role := jsStrOrStrOrUndefined (getAttr e "role") (getAttr e "aria-label")
    usagePath := "DOM Element"
    instanceIndex := JsNum.int 0
    propsSignature
    sourceFile := "DOM" }

/-- `parseInspectionMetadata` of `autoInspection.ts`, for the element at path
`p`.  `dev` is `process.env.NODE_ENV === "development"`; outside development
the function returns `null`.  With both marker attributes present and
non-empty the explicit metadata is used, otherwise metadata is inferred. -/
def parseInspectionMetadata (dev : Bool) (doc : DomTree) (p : DomPath) : Option ComponentMetadata :=
  if !dev then none
  else
    match dataAt doc p with
    | none => none
    | some e =>
      match getAttr e "data-inspection-name", getAttr e "data-inspection-id" with
      | some nm, some cid =>
        if nm != "" && cid != "" then some (explicitMetaOf nm cid e)
        else some (inferredMetaOf doc p e)
      | some _, none => some (inferredMetaOf doc p e)
      | none, _ => some (inferredMetaOf doc p e)

/-- The explicit-marker test of the walker's first pass:
`getAttribute("data-inspection-name") && getAttribute("data-inspection-id")`. -/
def hasExplicitMarkers (e : ElementData) : Bool :=
  jsTruthyStr (getAttr e "data-inspection-name") &&
  jsTruthyStr (getAttr e "data-inspection-id")

/-- `hasExplicitMarkers` at a path, `false` off the tree. -/
def hasMarkersAt (doc : DomTree) (p : DomPath) : Bool :=
  match dataAt doc p with
  | some e => hasExplicitMarkers e
  | none => false

/-- `isMeaningfulElement` of `inspectElement`: not tiny in both dimensions, and
carrying a name marker, an id, a class, or a tag other than SPAN/DIV. -/
def isMeaningfulElement (e : ElementData) : Bool :=
  if e.rectWidth < 5 && e.rectHeight < 5 then false
  else
    jsTruthyStr (getAttr e "data-inspection-name") || e.id != "" || e.className != "" ||
      (e.tagName != "SPAN" && e.tagName != "DIV")

/-- The walker's stop test when stepping to a parent: `tagName === "BODY" ||
tagName === "HTML"`. -/
def isStopTag (e : ElementData) : Bool := e.tagName == "BODY" || e.tagName == "HTML"

/-- First pass of `inspectElement`: walk from the target up through
`parentElement` links, return the first element whose marker attributes are
both truthy and whose parsed metadata is non-null (i.e. in development mode);
break on a detached element and stop without inspecting a parent tagged BODY
or HTML.  The body itself (path `[]`) is only inspected when it is the
starting target, exactly as in the source loop. -/
def pass1Find (dev : Bool) (doc : DomTree) : DomPath → Option DomPath
  | [] =>
    match elemAt doc [] with
    | none => none
    | some t => if dev && hasExplicitMarkers t.info then some [] else none
  | i :: rest =>
    match elemAt doc (i :: rest) with
    | none => none
    | some t =>
      if dev && hasExplicitMarkers t.info then some (i :: rest)
      else
        match elemAt doc rest with
        | none => none
        | some parentNode =>
          if isStopTag parentNode.info then none
          else pass1Find dev doc rest

/-- Second pass of `inspectElement`: same walk, keeping the first element that
is meaningful and whose parsed metadata is non-null (the source keeps walking
but only records the first hit). -/
def pass2Find (dev : Bool) (doc : DomTree) : DomPath → Option DomPath
  | [] =>
    match elemAt doc [] with
    | none => none
    | some t => if dev && isMeaningfulElement t.info then some [] else none
  | i :: rest =>
    match elemAt doc (i :: rest) with
    | none => none
    | some t =>
      if dev && isMeaningfulElement t.info then some (i :: rest)
      else
        match elemAt doc rest with
        | none => none
        | some parentNode =>
          if isStopTag parentNode.info then none
          else pass2Find dev doc rest

/-- `inspectElement` of `autoInspection.ts`.  The result is `none` when
`setHoveredComponent` is not invoked, and `some (metadata, element)` with the
setter's two arguments when it is. -/
def inspectElement (dev isInspectionActive isLocked : Bool) (doc : DomTree)
    (target : DomPath) : Option (Option ComponentMetadata × Option DomPath) :=
  if !isInspectionActive then none
  else if isLocked then none
  else if (elemAt doc target).isNone then none
  else
    match pass1Find dev doc target with
    | some q => some (parseInspectionMetadata dev doc q, some q)
    | none =>
      match pass2Find dev doc target with
      | some q => some (parseInspectionMetadata dev doc q, some q)
      | none =>
        match parseInspectionMetadata dev doc target with
        | some m => some (some m, some target)
        | none => some (none, none)

/-- `handleMouseMove` of `setupAutoInspection`: bail out while inactive or
locked, then delegate to `inspectElement` on the event target. -/
def handleMouseMove (dev isInspectionActive isLocked : Bool) (doc : DomTree)
    (target : DomPath) : Option (Option ComponentMetadata × Option DomPath) :=
  if !isInspectionActive then none
  else if isLocked then none
  else inspectElement dev isInspectionActive isLocked doc target

/-- The two session fields owned by the provider. -/
structure Session where
  hoveredMetadata : Option ComponentMetadata
  hoveredElement : Option DomPath
deriving DecidableEq, Repr

/-- `setHoveredComponent` of `InspectionContext.tsx`: a no-op outside
development; clears both fields when the passed element is non-null but no
longer attached; otherwise stores the passed pair. -/
def setHoveredComponent (dev : Bool) (doc : DomTree) (component : Option ComponentMetadata)
    (element : Option DomPath) (s : Session) : Session :=
  if !dev then s
  else
    match element with
    | some p =>
      if (elemAt doc p).isNone then { hoveredMetadata := none, hoveredElement := none }
      else { hoveredMetadata := component, hoveredElement := element }
    | none => { hoveredMetadata := component, hoveredElement := none }

/-- Effect of one mousemove event on the session: apply the setter exactly when
`handleMouseMove` invokes it. -/
def mouseMoveStep (dev isInspectionActive isLocked : Bool) (doc : DomTree)
    (s : Session) (target : DomPath) : Session :=
  match handleMouseMove dev isInspectionActive isLocked doc target with
  | none => s
  | some (c, el) => setHoveredComponent dev doc c el s

/-- The state read and written by the desktop key handlers of
`InspectionContext.tsx` (the ref-based, hold-to-lock variant): the three React
state cells, the H-key-held ref, and the request-blocking collaborator flag
set through `setInspectionActive`. -/
structure MachineState where
  isInspectionActive : Bool
  isLocked : Bool
  hoveredComponent : Option ComponentMetadata
  hoveredElement : Option DomPath
  hKeyPressed : Bool
  interceptorActive : Bool
deriving DecidableEq, Repr

/-- The fields of a `KeyboardEvent` the handlers consult. -/
structure KeyEvt where
  key : String
  ctrlKey : Bool
  isRepeat : Bool
deriving DecidableEq, Repr

/-- `handleKeyDown` of `InspectionContext.tsx`: CTRL+H locks (ignoring key
repeats, and only when inspection is active, a component is hovered, and H is
not already held); a non-repeat Control keydown activates inspection and the
request interceptor. -/
def handleKeyDown (e : KeyEvt) (s : MachineState) : MachineState :=
  if jsToLowerCase e.key == "h" && e.ctrlKey then
    if e.isRepeat then s
    else if s.isInspectionActive && s.hoveredComponent.isSome && !s.hKeyPressed then
      { s with hKeyPressed := true, isLocked := true }
    else s
  else if e.key == "Control" && !e.isRepeat then
    { s with isInspectionActive := true, interceptorActive := true }
  else s

/-- `handleKeyUp` of `InspectionContext.tsx`: an H key-up is processed only if
H was registered as held, unlocking only when locked with CTRL still held and
inspection active; a Control key-up deactivates and clears everything. -/
def handleKeyUp (e : KeyEvt) (s : MachineState) : MachineState :=
  if jsToLowerCase e.key == "h" then
    if s.hKeyPressed then
      let wasLocked := s.isLocked
      let s' := { s with hKeyPressed := false }
      if wasLocked && e.ctrlKey && s.isInspectionActive then { s' with isLocked := false }
      else s'
    else s
  else if e.key == "Control" then
    { s with isInspectionActive := false, isLocked := false, hKeyPressed := false,
             interceptorActive := false, hoveredComponent := none, hoveredElement := none }
  else s

/-- An input consumed by the machine: a key event, or a
`setHoveredComponent` call issued by the walker or the instrumentation hook. -/
inductive MEvent where
  | keyDown (key : String) (ctrlKey : Bool) (isRepeat : Bool)
  | keyUp (key : String) (ctrlKey : Bool)
  | hover (component : Option ComponentMetadata) (element : Option DomPath)
deriving DecidableEq, Repr

/-- One machine step in development mode against the document `doc`. -/
def machineStep (doc : DomTree) (s : MachineState) : MEvent → MachineState
  | .keyDown k c r => handleKeyDown ⟨k, c, r⟩ s
  | .keyUp k c => handleKeyUp ⟨k, c, false⟩ s
  | .hover component element =>
    let sess := setHoveredComponent true doc component element
      ⟨s.hoveredComponent, s.hoveredElement⟩
    { s with hoveredComponent := sess.hoveredMetadata, hoveredElement := sess.hoveredElement }

/-- Run a list of machine inputs from a state. -/
def runMachine (doc : DomTree) (s : MachineState) (es : List MEvent) : MachineState :=
  es.foldl (machineStep doc) s

/-- The state of the provider at mount. -/
def initialMachineState : MachineState :=
  { isInspectionActive := false, isLocked := false, hoveredComponent := none,
    hoveredElement := none, hKeyPressed := false, interceptorActive := false }

/-- A JavaScript value as it can appear in a props record. -/
inductive JsValue where
  | str (s : String)
  | num (n : Int)
  | bool (b : Bool)
  | nullV
  | undef
  | obj
deriving DecidableEq, Repr

/-- `typeof v` is `"string" | "number" | "boolean"`. -/
def isPrimitiveJs : JsValue → Bool
  | .str _ => true
  | .num _ => true
  | .bool _ => true
  | _ => false

/-- `String(v)`. -/
def jsStringOfValue : JsValue → String
  | .str s => s
  | .num n => toString n
  | .bool b => if b then "true" else "false"
  | .nullV => "null"
  | .undef => "undefined"
  | .obj => "[object Object]"

/-- A `Record<string, any>`: `props k = none` models `!(k in props)`. -/
abbrev PropsRecord := String → Option JsValue

/-- The allow-list of `formatPropsSignature`, in source order. -/
def importantProps : List String :=
  ["variant", "role", "type", "mode", "status", "disabled", "selected", "active"]

/-- `formatPropsSignature` of `inspection.ts`: accumulate `key=value` for the
allow-listed keys present with a non-null, non-undefined primitive value, then
join with `", "` or fall back to `"default"`. -/
def formatPropsSignature (props : PropsRecord) : String :=
  let keyProps := importantProps.foldl (fun acc key =>
    match props key with
    | some v =>
      if v != JsValue.undef && v != JsValue.nullV then
        if isPrimitiveJs v then acc ++ [key ++ "=" ++ jsStringOfValue v] else acc
      else acc
    | none => acc) ([] : List String)
  if keyProps.length > 0 then String.intercalate ", " keyProps else "default"

/-- `generateComponentId` of `inspection.ts`:
`componentName.toLowerCase().replace(/\s+/g, "-") + "-" + instanceIndex`. -/
def generateComponentId (componentName : String) (instanceIndex : Nat) : String :=
  jsReplaceWsWithHyphen (jsToLowerCase componentName) ++ "-" ++ toString instanceIndex

/-- The process-wide `componentInstanceCounts` map, in insertion order. -/
abbrev CounterMap := List (String × Nat)

/-- `componentInstanceCounts.get(name) || 0`. -/
def counterGet (m : CounterMap) (name : String) : Nat := (m.lookup name).getD 0

/-- `componentInstanceCounts.set(name, v)`: update in place or append. -/
def counterSet (m : CounterMap) (name : String) (v : Nat) : CounterMap :=
  if (m.lookup name).isSome then
    m.map (fun kv => if kv.1 == name then (name, v) else kv)
  else m ++ [(name, v)]

/-- `getNextInstanceIndex` of `inspection.ts`: return the current count and
store the incremented count; the map is threaded explicitly. -/
def getNextInstanceIndex (componentName : String) (m : CounterMap) : Nat × CounterMap :=
  let current := counterGet m componentName
  (current, counterSet m componentName (current + 1))

/-- `resetInstanceCounts` of `inspection.ts`. -/
def resetInstanceCounts (_m : CounterMap) : CounterMap := ([] : List (String × Nat))

/-- The configuration record accepted by `useInspectionMetadata`. -/
structure HookConfig where
  componentName : String
  variant : Option String
  role : Option String
  usagePath : String
  props : PropsRecord
  sourceFile : String

/-- The `ComponentMetadata` built by `useInspectionMetadata` after allocating
`instanceIndex` from the counter map. -/
def hookMetadata (config : HookConfig) (m : CounterMap) : ComponentMetadata × CounterMap :=
  let alloc := getNextInstanceIndex config.componentName m
  ({ componentName := config.componentName
     componentId := generateComponentId config.componentName alloc.1
     variant := config.variant
     role := config.role
     usagePath := config.usagePath
     instanceIndex := JsNum.int alloc.1
     propsSignature := formatPropsSignature config.props
     sourceFile := config.sourceFile }, alloc.2)

/-- A left fold that appends an optional token per element is the
`filterMap` of the token function. -/
theorem foldl_append_filterMap {α β : Type} (g : α → Option β) (f : List β → α → List β)
    (hfg : ∀ acc k, f acc k = acc ++ (g k).toList) :
    ∀ (L : List α) (acc : List β), L.foldl f acc = acc ++ L.filterMap g := by
  intro L
  induction L with
  | nil => intro acc; simp
  | cons k L ih =>
    intro acc
    rw [List.foldl_cons, ih, hfg, List.filterMap_cons]
    cases g k <;> simp

/-- C9: `formatPropsSignature` keeps exactly the allow-listed keys
(`variant, role, type, mode, status, disabled, selected, active`, in that
order) whose value is present as a string, number or boolean, serialises each
as `key=value`, joins them with `", "`, and yields `"default"` when no key
matches. -/
theorem formatPropsSignature_spec (props : PropsRecord) :
    formatPropsSignature props =
      (let toks := importantProps.filterMap (fun k =>
        match props k with
        | some (JsValue.str s) => some (k ++ "=" ++ s)
        | some (JsValue.num n) => some (k ++ "=" ++ toString n)
        | some (JsValue.bool b) => some (k ++ "=" ++ (if b then "true" else "false"))
        | _ => none)
       if toks = [] then "default" else String.intercalate ", " toks) := by
  unfold formatPropsSignature
  rw [foldl_append_filterMap
    (fun k =>
      match props k with
      | some (JsValue.str s) => some (k ++ "=" ++ s)
      | some (JsValue.num n) => some (k ++ "=" ++ toString n)
      | some (JsValue.bool b) => some (k ++ "=" ++ (if b then "true" else "false"))
      | _ => none)]
  · rw [List.nil_append]
    cases h : importantProps.filterMap _ with
    | nil => simp [h]
    | cons t ts => simp [h]
  · intro acc k
    cases hk : props k with
    | none => simp
    | some v => cases v <;> simp [isPrimitiveJs, jsStringOfValue]

/-- Collapsing whitespace runs to a single space and then to hyphens is the
same as collapsing them to hyphens directly. -/
theorem squashWs_space_hyphen (l : List Char) :
    ∀ flag, squashWs '-' (squashWs ' ' l flag) flag = squashWs '-' l flag := by
  induction l with
  | nil => intro flag; simp [squashWs]
  | cons c cs ih =>
    intro flag
    by_cases hc : isJsWs c = true
    · cases flag with
      | true => simp [squashWs, hc, ih]
      | false =>
        have hsp : isJsWs ' ' = true := by decide
        simp [squashWs, hc, hsp, ih]
    · have hc' : isJsWs c = false := by simpa using hc
      simp [squashWs, hc', ih]

/-- C10: `generateComponentId` is the component name lower-cased with every
maximal whitespace run replaced by a single hyphen, followed by a hyphen and
the decimal instance index; names whose lower-cased, whitespace-collapsed
forms agree (i.e. names differing only in letter case or in whitespace)
receive the same id at equal indices; and the hook-built metadata's
`componentId` is exactly this function of the name and the allocated index. -/
theorem generateComponentId_canonical :
    (∀ (n : String) (i : Nat),
      generateComponentId n i
        = jsReplaceWsWithHyphen (jsToLowerCase n) ++ "-" ++ toString i) ∧
    (∀ (n₁ n₂ : String) (i : Nat),
      jsReplaceWsWithSpace (jsToLowerCase n₁) = jsReplaceWsWithSpace (jsToLowerCase n₂) →
      generateComponentId n₁ i = generateComponentId n₂ i) ∧
    (∀ (config : HookConfig) (m : CounterMap),
      ((hookMetadata config m).1).componentId
        = generateComponentId config.componentName (counterGet m config.componentName)) := by
  refine ⟨fun n i => rfl, fun n₁ n₂ i h => ?_, fun config m => rfl⟩
  have hdata : squashWs ' ' (jsToLowerCase n₁).data false
      = squashWs ' ' (jsToLowerCase n₂).data false := congrArg String.data h
  show jsReplaceWsWithHyphen (jsToLowerCase n₁) ++ "-" ++ toString i
      = jsReplaceWsWithHyphen (jsToLowerCase n₂) ++ "-" ++ toString i
  unfold jsReplaceWsWithHyphen
  rw [← squashWs_space_hyphen (jsToLowerCase n₁).data false,
      ← squashWs_space_hyphen (jsToLowerCase n₂).data false, hdata]

/-- C10 witness: two names differing only in case and in the shape of one
whitespace run get the same id. -/
theorem generateComponentId_canonical_witness :
    jsReplaceWsWithSpace (jsToLowerCase "Save  Button")
        = jsReplaceWsWithSpace (jsToLowerCase "save\tbutton") ∧
    generateComponentId "Save  Button" 7 = generateComponentId "save\tbutton" 7 := by
  refine ⟨by decide, generateComponentId_canonical.2.1 "Save  Button" "save\tbutton" 7 (by decide)⟩

/-- A minimal body element used by concrete scenarios. -/
def fxBody : ElementData :=
  { tagName := "BODY", id := "", className := "", textContent := "", attrs := [],
    rectWidth := 800, rectHeight := 600 }

/-- A concrete metadata record used by concrete scenarios. -/
def fxMeta : ComponentMetadata :=
  { componentName := "SaveButton", componentId := "save-button-0", variant := some "primary",
    role := none, usagePath := "ActivityPage > TransactionForm", instanceIndex := JsNum.int 0,
    propsSignature := "variant=primary", sourceFile := "src/SaveButton.tsx" }

/-- A one-element document: the body with a single button child. -/
def fxDoc : DomTree :=
  .node fxBody
    [.node { tagName := "BUTTON", id := "save-button", className := "btn primary",
             textContent := "Save", attrs := [], rectWidth := 100, rectHeight := 30 } []]

/-- C5: a Control key-up from any state leaves the machine inactive with both
session fields null, the lock cleared and the H-held flag cleared, and a
subsequent H key-up (upper or lower case key name, with or without ctrl)
changes nothing: the machine stays inactive and unlocked. -/
theorem control_keyup_resets (s : MachineState) (ctrl1 ctrl2 : Bool) (hk : String)
    (hhk : jsToLowerCase hk = "h") :
    (handleKeyUp ⟨"Control", ctrl1, false⟩ s).isInspectionActive = false ∧
    (handleKeyUp ⟨"Control", ctrl1, false⟩ s).isLocked = false ∧
    (handleKeyUp ⟨"Control", ctrl1, false⟩ s).hoveredComponent = none ∧
    (handleKeyUp ⟨"Control", ctrl1, false⟩ s).hoveredElement = none ∧
    (handleKeyUp ⟨"Control", ctrl1, false⟩ s).hKeyPressed = false ∧
    handleKeyUp ⟨hk, ctrl2, false⟩ (handleKeyUp ⟨"Control", ctrl1, false⟩ s)
      = handleKeyUp ⟨"Control", ctrl1, false⟩ s := by
  refine ⟨rfl, rfl, rfl, rfl, rfl, ?_⟩
  have hbeq : (jsToLowerCase hk == "h") = true := by simp [hhk]
  have hcon : handleKeyUp ⟨"Control", ctrl1, false⟩ s
      = { s with isInspectionActive := false, isLocked := false, hKeyPressed := false,
                 interceptorActive := false, hoveredComponent := none,
                 hoveredElement := none } := rfl
  rw [hcon]
  unfold handleKeyUp
  simp [hbeq]

/-- C5 witness: from a locked, hovering, active state, Control key-up resets
everything and a following H key-up keeps the machine inactive. -/
theorem control_keyup_resets_witness :
    jsToLowerCase "H" = "h" ∧
    ((handleKeyUp ⟨"Control", false, false⟩
        { isInspectionActive := true, isLocked := true, hoveredComponent := some fxMeta,
          hoveredElement := some [0], hKeyPressed := true,
          interceptorActive := true }).isInspectionActive = false ∧
      (handleKeyUp ⟨"Control", false, false⟩
        { isInspectionActive := true, isLocked := true, hoveredComponent := some fxMeta,
          hoveredElement := some [0], hKeyPressed := true,
          interceptorActive := true }).isLocked = false) := by
  have h := control_keyup_resets
    { isInspectionActive := true, isLocked := true, hoveredComponent := some fxMeta,
      hoveredElement := some [0], hKeyPressed := true, interceptorActive := true }
    false true "H" (by decide)
  exact ⟨by decide, h.1, h.2.1⟩

/-- C6 (amended): with the secondary key's lower-cased name `"h"` and ctrl
held, a key-down locks exactly when it is not a repeat, inspection is active,
a component is hovered and H is not already registered as held (otherwise
the state is unchanged, in particular on key repeats); without ctrl a
secondary key-down changes nothing; and a key-up with ctrl held unlocks and
clears the held flag provided H is registered as held, the machine is locked
and inspection is active — inspection stays active. -/
theorem secondary_key_lock_unlock (s : MachineState) (k : String) (rep : Bool)
    (hk : jsToLowerCase k = "h") :
    (handleKeyDown ⟨k, true, rep⟩ s =
      if !rep && s.isInspectionActive && s.hoveredComponent.isSome && !s.hKeyPressed then
        { s with hKeyPressed := true, isLocked := true }
      else s) ∧
    (handleKeyDown ⟨k, false, rep⟩ s = s) ∧
    (s.hKeyPressed = true → s.isLocked = true → s.isInspectionActive = true →
      handleKeyUp ⟨k, true, false⟩ s
        = { s with isLocked := false, hKeyPressed := false }) := by
  have hbeq : (jsToLowerCase k == "h") = true := by simp [hk]
  have hnc : (k == "Control") = false := by
    cases heq : k == "Control" with
    | false => rfl
    | true =>
      exfalso
      have : k = "Control" := by simpa using heq
      rw [this] at hk
      exact absurd hk (by decide)
  refine ⟨?_, ?_, ?_⟩
  · unfold handleKeyDown
    simp only [hbeq, Bool.true_and, Bool.and_true]
    cases rep <;> simp
  · unfold handleKeyDown
    simp [hbeq, hnc]
  · intro hheld hlock hact
    unfold handleKeyUp
    simp [hbeq, hheld, hlock, hact]

/-- C6 witness: in a state reached by Control down, a hover, and CTRL+H down,
an H key-up with ctrl held unlocks while inspection stays active; and a
repeated CTRL+H key-down in the locked state changes nothing. -/
theorem secondary_key_lock_unlock_witness :
    (handleKeyUp ⟨"h", true, false⟩
        (runMachine fxDoc initialMachineState
          [MEvent.keyDown "Control" true false, MEvent.hover (some fxMeta) (some [0]),
           MEvent.keyDown "h" true false])
      = { runMachine fxDoc initialMachineState
            [MEvent.keyDown "Control" true false, MEvent.hover (some fxMeta) (some [0]),
             MEvent.keyDown "h" true false]
          with isLocked := false, hKeyPressed := false }) ∧
    (handleKeyDown ⟨"h", true, true⟩
        (runMachine fxDoc initialMachineState
          [MEvent.keyDown "Control" true false, MEvent.hover (some fxMeta) (some [0]),
           MEvent.keyDown "h" true false])
      = runMachine fxDoc initialMachineState
          [MEvent.keyDown "Control" true false, MEvent.hover (some fxMeta) (some [0]),
           MEvent.keyDown "h" true false]) := by
  have h := secondary_key_lock_unlock
    (runMachine fxDoc initialMachineState
      [MEvent.keyDown "Control" true false, MEvent.hover (some fxMeta) (some [0]),
       MEvent.keyDown "h" true false]) "h" true (by decide)
  exact ⟨h.2.2 (by decide) (by decide) (by decide), by rw [h.1]; decide⟩

/-- C6 counterexample: after Control down, a hover, CTRL+H down, and an H
key-up that arrived while ctrl was not held, the machine is still active and
locked, yet a further H key-up with ctrl held does *not* restore
`isLocked = false` — the literal claim that a secondary key-up with the
primary modifier held while locked always unlocks is false. -/
theorem secondary_keyup_stuck_lock :
    (runMachine fxDoc initialMachineState
        [MEvent.keyDown "Control" true false, MEvent.hover (some fxMeta) (some [0]),
         MEvent.keyDown "h" true false, MEvent.keyUp "h" false]).isInspectionActive = true ∧
    (runMachine fxDoc initialMachineState
        [MEvent.keyDown "Control" true false, MEvent.hover (some fxMeta) (some [0]),
         MEvent.keyDown "h" true false, MEvent.keyUp "h" false]).isLocked = true ∧
    (handleKeyUp ⟨"h", true, false⟩
        (runMachine fxDoc initialMachineState
          [MEvent.keyDown "Control" true false, MEvent.hover (some fxMeta) (some [0]),
           MEvent.keyDown "h" true false, MEvent.keyUp "h" false])).isLocked = true := by
  decide

/-- C8: in development mode, `setHoveredComponent` writes the session in
exactly one of two atomic ways — the passed pair when the element is null or
still attached, and `(null, null)` when the passed element is detached; the
result never mixes the previous state's fields with the new call's. -/
theorem setHoveredComponent_atomic (doc : DomTree) (component : Option ComponentMetadata)
    (element : Option DomPath) (s : Session) :
    ((element = none ∨ ∃ p, element = some p ∧ (elemAt doc p).isSome) →
      setHoveredComponent true doc component element s
        = { hoveredMetadata := component, hoveredElement := element }) ∧
    (∀ p, element = some p → elemAt doc p = none →
      setHoveredComponent true doc component element s
        = { hoveredMetadata := none, hoveredElement := none }) ∧
    (setHoveredComponent true doc component element s
        = { hoveredMetadata := component, hoveredElement := element } ∨
      setHoveredComponent true doc component element s
        = { hoveredMetadata := none, hoveredElement := none }) := by
  refine ⟨?_, ?_, ?_⟩
  · rintro (rfl | ⟨p, rfl, hp⟩)
    · rfl
    · simp [setHoveredComponent, Option.isNone_iff_eq_none]
      intro hnone
      rw [hnone] at hp
      simp at hp
  · rintro p rfl hnone
    simp [setHoveredComponent, hnone]
  · unfold setHoveredComponent
    cases element with
    | none => left; rfl
    | some p =>
      cases hat : (elemAt doc p).isNone with
      | true => right; simp [hat]
      | false => left; simp [hat]

/-- C8 witness: storing a metadata/element pair for an attached element keeps
the pair together, and a detached element collapses both fields to null. -/
theorem setHoveredComponent_atomic_witness :
    setHoveredComponent true fxDoc (some fxMeta) (some [0])
        { hoveredMetadata := none, hoveredElement := none }
      = { hoveredMetadata := some fxMeta, hoveredElement := some [0] } ∧
    setHoveredComponent true fxDoc (some fxMeta) (some [7])
        { hoveredMetadata := none, hoveredElement := none }
      = { hoveredMetadata := none, hoveredElement := none } := by
  refine ⟨(setHoveredComponent_atomic fxDoc (some fxMeta) (some [0]) _).1 ?_,
    (setHoveredComponent_atomic fxDoc (some fxMeta) (some [7]) _).2.1 [7] rfl ?_⟩
  · exact Or.inr ⟨[0], rfl, by decide⟩
  · rfl

/-- C4: while locked (and likewise while inactive, or when the event target is
detached from the body) a mousemove never invokes the session setter, and any
number of such mousemove events leaves the session fields unchanged. -/
theorem locked_mousemove_no_update (dev active locked : Bool) (doc : DomTree) :
    (∀ target : DomPath, handleMouseMove dev active true doc target = none) ∧
    (∀ target : DomPath, handleMouseMove dev false locked doc target = none) ∧
    (∀ target : DomPath, elemAt doc target = none →
      handleMouseMove dev active locked doc target = none) ∧
    (∀ (s : Session) (targets : List DomPath),
      targets.foldl (mouseMoveStep dev active true doc) s = s) ∧
    (∀ (s : Session) (targets : List DomPath),
      targets.foldl (mouseMoveStep dev false locked doc) s = s) ∧
    (∀ (s : Session) (targets : List DomPath), active = true → locked = false →
      (∀ t ∈ targets, elemAt doc t = none) →
      targets.foldl (mouseMoveStep dev active locked doc) s = s) := by
  have hlock : ∀ target : DomPath, handleMouseMove dev active true doc target = none := by
    intro target
    unfold handleMouseMove
    cases active <;> simp
  have hinact : ∀ target : DomPath, handleMouseMove dev false locked doc target = none := by
    intro target
    unfold handleMouseMove
    simp
  have hdet : ∀ target : DomPath, elemAt doc target = none →
      handleMouseMove dev active locked doc target = none := by
    intro target ht
    unfold handleMouseMove inspectElement
    cases active <;> cases locked <;> simp [ht]
  refine ⟨hlock, hinact, hdet, ?_, ?_, ?_⟩
  · intro s targets
    induction targets generalizing s with
    | nil => rfl
    | cons t ts ih => rw [List.foldl_cons, mouseMoveStep, hlock t]; exact ih s
  · intro s targets
    induction targets generalizing s with
    | nil => rfl
    | cons t ts ih => rw [List.foldl_cons, mouseMoveStep, hinact t]; exact ih s
  · intro s targets hact hnl hall
    induction targets generalizing s with
    | nil => rfl
    | cons t ts ih =>
      rw [List.foldl_cons, mouseMoveStep, hdet t (hall t (by simp))]
      exact ih s (fun u hu => hall u (by simp [hu]))

/-- C4 witness: with the lock held, two mousemove events over the fixture
document leave a concrete session untouched, and a single event produces no
setter call. -/
theorem locked_mousemove_no_update_witness :
    handleMouseMove true true true fxDoc [0] = none ∧
    [([0] : DomPath), []].foldl (mouseMoveStep true true true fxDoc)
        { hoveredMetadata := some fxMeta, hoveredElement := some [0] }
      = { hoveredMetadata := some fxMeta, hoveredElement := some [0] } := by
  exact ⟨(locked_mousemove_no_update true true true fxDoc).1 [0],
    (locked_mousemove_no_update true true true fxDoc).2.2.2.1
      { hoveredMetadata := some fxMeta, hoveredElement := some [0] } [[0], []]⟩

/-- Descending along a concatenation is sequential descent. -/
theorem descend_append (t : DomTree) (l1 l2 : List Nat) :
    descend t (l1 ++ l2) = (descend t l1).bind (fun u => descend u l2) := by
  induction l1 generalizing t with
  | nil => simp [descend]
  | cons i l ih =>
    simp only [List.cons_append, descend]
    cases t.kids.get? i with
    | none => simp
    | some c => simp [ih c]

/-- An attached element's parent is attached. -/
theorem elemAt_cons_isSome (doc : DomTree) (i : Nat) (rest : DomPath)
    (h : (elemAt doc (i :: rest)).isSome = true) : (elemAt doc rest).isSome = true := by
  unfold elemAt at h ⊢
  rw [List.reverse_cons, descend_append] at h
  cases hd : descend doc rest.reverse with
  | none => rw [hd] at h; simp at h
  | some t => simp

/-- The ancestor-or-self chain the walker may inspect: all non-empty suffixes
of the path, nearest first (the body `[]` is excluded). -/
def specChain (p : DomPath) : List DomPath := p.tails.dropLast

/-- Unfolding of `specChain` on a non-empty path. -/
theorem specChain_cons (i : Nat) (rest : DomPath) :
    specChain (i :: rest) = (i :: rest) :: specChain rest := by
  cases rest with
  | nil => rfl
  | cons j rest' => rfl

/-- `true` when the element at `q` is absent or not tagged BODY/HTML; the
walker's parent-stop test never fires below a well-formed body. -/
def notStopAt (doc : DomTree) (q : DomPath) : Bool :=
  match dataAt doc q with
  | some e => !isStopTag e
  | none => true

/-- `hasMarkersAt` through an `elemAt` result. -/
theorem hasMarkersAt_eq (doc : DomTree) (p : DomPath) (t : DomTree)
    (h : elemAt doc p = some t) : hasMarkersAt doc p = hasExplicitMarkers t.info := by
  simp [hasMarkersAt, dataAt, h]

/-- The first pass of the walker returns exactly the first element of the
ancestor-or-self chain that carries both marker attributes, provided the
target is attached and no chain element is tagged BODY or HTML. -/
theorem pass1Find_finds (doc : DomTree) :
    ∀ (p q0 : DomPath),
    (elemAt doc p).isSome = true →
    (∀ q ∈ specChain p, notStopAt doc q = true) →
    (specChain p).find? (hasMarkersAt doc) = some q0 →
    pass1Find true doc p = some q0 := by
  intro p
  induction p with
  | nil =>
    intro q0 _ _ hfind
    simp [specChain] at hfind
  | cons i rest ih =>
    intro q0 hatt hwf hfind
    rw [specChain_cons] at hfind
    obtain ⟨t, ht⟩ := Option.isSome_iff_exists.mp hatt
    cases hm : hasMarkersAt doc (i :: rest) with
    | true =>
      rw [List.find?_cons_of_pos _ hm] at hfind
      have hq : q0 = i :: rest := (Option.some.inj hfind).symm
      subst hq
      have hmark : hasExplicitMarkers t.info = true := by
        rw [← hasMarkersAt_eq doc (i :: rest) t ht]; exact hm
      unfold pass1Find
      rw [ht]
      simp [hmark]
    | false =>
      rw [List.find?_cons_of_neg _ (by simp [hm])] at hfind
      cases rest with
      | nil => simp [specChain] at hfind
      | cons j rest' =>
        have hpatt : (elemAt doc (j :: rest')).isSome = true :=
          elemAt_cons_isSome doc i (j :: rest') hatt
        obtain ⟨pt, hpt⟩ := Option.isSome_iff_exists.mp hpatt
        have hmem : (j :: rest') ∈ specChain (i :: j :: rest') := by
          rw [specChain_cons, specChain_cons]
          exact List.mem_cons_of_mem _ (List.mem_cons_self _ _)
        have hns : notStopAt doc (j :: rest') = true := hwf _ hmem
        have hstop : isStopTag pt.info = false := by
          unfold notStopAt at hns
          rw [show dataAt doc (j :: rest') = some pt.info by simp [dataAt, hpt]] at hns
          simpa using hns
        have hmark : hasExplicitMarkers t.info = false := by
          rw [← hasMarkersAt_eq doc (i :: j :: rest') t ht]; exact hm
        have hih := ih q0 hpatt
          (fun q hq => hwf q (by rw [specChain_cons]; exact List.mem_cons_of_mem _ hq)) hfind
        unfold pass1Find
        rw [ht]
        simp [hmark, hpt, hstop, hih]

/-- With both markers present, `parseInspectionMetadata` in development mode
returns the explicit metadata built from them. -/
theorem parse_explicit (doc : DomTree) (q : DomPath) (e : ElementData)
    (he : dataAt doc q = some e) (nm cid : String)
    (hnm : getAttr e "data-inspection-name" = some nm)
    (hcid : getAttr e "data-inspection-id" = some cid)
    (hm : hasExplicitMarkers e = true) :
    parseInspectionMetadata true doc q = some (explicitMetaOf nm cid e) := by
  have hne : (nm != "") = true ∧ (cid != "") = true := by
    simp only [hasExplicitMarkers, jsTruthyStr, hnm, hcid] at hm
    simpa using hm
  unfold parseInspectionMetadata
  simp [he, hnm, hcid, hne.1, hne.2]

/-- C1: with inspection active and unlocked, whenever some ancestor-or-self of
the attached target below the body carries both marker attributes, the walker
invokes the setter with the *nearest* such ancestor and the metadata parsed
from its markers — regardless of any closer ancestor qualifying only as
meaningful. -/
theorem inspectElement_explicit_priority (doc : DomTree) (p q0 : DomPath)
    (hatt : (elemAt doc p).isSome = true)
    (hwf : ∀ q ∈ specChain p, notStopAt doc q = true)
    (hfind : (specChain p).find? (hasMarkersAt doc) = some q0) :
    inspectElement true true false doc p
      = some (parseInspectionMetadata true doc q0, some q0) ∧
    hasMarkersAt doc q0 = true ∧
    (∀ e nm cid, dataAt doc q0 = some e →
      getAttr e "data-inspection-name" = some nm →
      getAttr e "data-inspection-id" = some cid →
      parseInspectionMetadata true doc q0 = some (explicitMetaOf nm cid e)) := by
  have hp1 := pass1Find_finds doc p q0 hatt hwf hfind
  have hmq : hasMarkersAt doc q0 = true := List.find?_some hfind
  refine ⟨?_, hmq, ?_⟩
  · unfold inspectElement
    cases hel : elemAt doc p with
    | none => rw [hel] at hatt; simp at hatt
    | some t => simp [hel, hp1]
  · intro e nm cid he hnm hcid
    have hme : hasExplicitMarkers e = true := by
      simp only [hasMarkersAt, he] at hmq
      exact hmq
    exact parse_explicit doc q0 e he nm cid hnm hcid hme

/-- An instrumented card component: explicit name and id markers. -/
def fxCardE : ElementData :=
  { tagName := "DIV", id := "", className := "card-root", textContent := "Save",
    attrs := [("data-inspection-name", "Card"), ("data-inspection-id", "card-1"),
              ("data-inspection-variant", "primary"),
              ("data-inspection-instance", "2")],
    rectWidth := 300, rectHeight := 100 }

/-- An intermediate wrapper that is meaningful (it has a DOM id) but has no
markers. -/
def fxInnerE : ElementData :=
  { tagName := "DIV", id := "inner", className := "", textContent := "Save", attrs := [],
    rectWidth := 280, rectHeight := 90 }

/-- A plain span, the hovered target. -/
def fxSpanE : ElementData :=
  { tagName := "SPAN", id := "", className := "", textContent := "Save", attrs := [],
    rectWidth := 50, rectHeight := 20 }

/-- body > card(markers) > inner(meaningful) > span(target). -/
def fxDocC1 : DomTree :=
  .node fxBody [.node fxCardE [.node fxInnerE [.node fxSpanE []]]]

/-- C1 witness: hovering the span, the walker reports the marked grandparent
card and its explicit metadata, skipping the meaningful inner wrapper. -/
theorem inspectElement_explicit_priority_witness :
    inspectElement true true false fxDocC1 [0, 0, 0]
      = some (some (explicitMetaOf "Card" "card-1" fxCardE), some [0]) := by
  have h := inspectElement_explicit_priority fxDocC1 [0, 0, 0] [0]
    (by decide) (by decide) (by decide)
  rw [h.1, h.2.2 fxCardE "Card" "card-1" (by decide) (by decide) (by decide)]

/-- Without both markers, `parseInspectionMetadata` in development mode returns
the inferred metadata. -/
theorem parse_inferred (doc : DomTree) (q : DomPath) (e : ElementData)
    (he : dataAt doc q = some e) (hm : hasExplicitMarkers e = false) :
    parseInspectionMetadata true doc q = some (inferredMetaOf doc q e) := by
  unfold parseInspectionMetadata
  cases hn : getAttr e "data-inspection-name" with
  | none => simp [he, hn]
  | some nm =>
    cases hc : getAttr e "data-inspection-id" with
    | none => simp [he, hn, hc]
    | some cid =>
      have hcond : (nm != "" && cid != "") = false := by
        simp only [hasExplicitMarkers, jsTruthyStr, hn, hc] at hm
        simpa using hm
      simp [he, hn, hc, hcond]

/-- Whenever the walker invokes the setter with a metadata/element pair, the
metadata is the parse of that element. -/
theorem inspectElement_result_parse (doc : DomTree) (p : DomPath)
    (m : ComponentMetadata) (q : DomPath)
    (h : inspectElement true true false doc p = some (some m, some q)) :
    parseInspectionMetadata true doc q = some m := by
  unfold inspectElement at h
  simp only [Bool.not_true, Bool.false_eq_true, if_false] at h
  cases hel : elemAt doc p with
  | none => simp [hel] at h
  | some t =>
    simp only [hel, Option.isNone_some, Bool.false_eq_true, if_false] at h
    cases h1 : pass1Find true doc p with
    | some q' =>
      rw [h1] at h
      simp only [Option.some.injEq, Prod.mk.injEq] at h
      rw [← h.2, ← h.1]
    | none =>
      rw [h1] at h
      cases h2 : pass2Find true doc p with
      | some q' =>
        rw [h2] at h
        simp only [Option.some.injEq, Prod.mk.injEq] at h
        rw [← h.2, ← h.1]
      | none =>
        rw [h2] at h
        cases h3 : parseInspectionMetadata true doc p with
        | some m' =>
          rw [h3] at h
          simp only [Option.some.injEq, Prod.mk.injEq] at h
          rw [← h.2, h3, h.1]
        | none => rw [h3] at h; simp at h

/-- C7: resolution is deterministic — two invocations of the walker on the
same tree, target and flags are equal; a resolved element without a DOM id and
without markers gets the componentId built from the 32-bit hash of its
tag-indexed ancestor path; and that id depends only on the tag-indexed path
segments (and tag), not on any other tree content. -/
theorem inspectElement_deterministic (doc : DomTree) (p : DomPath) (a l : Bool) :
    (inspectElement true a l doc p = inspectElement true a l doc p) ∧
    (∀ (m : ComponentMetadata) (q : DomPath),
      inspectElement true true false doc p = some (some m, some q) →
      parseInspectionMetadata true doc q = some m) ∧
    (∀ (m : ComponentMetadata) (q : DomPath) (e : ElementData),
      inspectElement true true false doc p = some (some m, some q) →
      dataAt doc q = some e → e.id = "" → hasExplicitMarkers e = false →
      m.componentId
        = jsToLowerCase e.tagName ++ "-"
            ++ hashToShortBase36 (jsHashString (detIdPathString doc q))) ∧
    (∀ (doc2 : DomTree) (q2 : DomPath) (tag : String),
      detIdSegments doc p = detIdSegments doc2 q2 →
      generateDeterministicId doc p "" tag = generateDeterministicId doc2 q2 "" tag) := by
  refine ⟨rfl, inspectElement_result_parse doc p, ?_, ?_⟩
  · intro m q e hres he hid hm
    have hp := inspectElement_result_parse doc p m q hres
    rw [parse_inferred doc q e he hm] at hp
    have hmi : m = inferredMetaOf doc q e := (Option.some.inj hp).symm
    subst hmi
    show generateDeterministicId doc q (extractElementInfo e).id (extractElementInfo e).tagName
        = jsToLowerCase e.tagName ++ "-" ++ hashToShortBase36 (jsHashString (detIdPathString doc q))
    have hinfoid : (extractElementInfo e).id = "" := hid
    unfold generateDeterministicId
    rw [hinfoid]
    rfl
  · intro doc2 q2 tag hseg
    unfold generateDeterministicId detIdPathString
    rw [hseg]

/-- A plain card div: no markers, no id, two classes. -/
def fxPlainE : ElementData :=
  { tagName := "DIV", id := "", className := "transaction-card selected", textContent := "",
    attrs := [], rectWidth := 200, rectHeight := 80 }

/-- body > plain div. -/
def fxDocPlain : DomTree := .node fxBody [.node fxPlainE []]

set_option maxRecDepth 8192 in
/-- C7 witness: on the plain div the walker reports the inferred metadata, and
its componentId is the deterministic tag-and-hash id of the div's path;
a second document with the same tag-indexed structure yields the same id. -/
theorem inspectElement_deterministic_witness :
    inspectElement true true false fxDocPlain [0]
      = some (some (inferredMetaOf fxDocPlain [0] fxPlainE), some [0]) ∧
    (inferredMetaOf fxDocPlain [0] fxPlainE).componentId
      = jsToLowerCase fxPlainE.tagName ++ "-"
          ++ hashToShortBase36 (jsHashString (detIdPathString fxDocPlain [0])) ∧
    generateDeterministicId fxDocPlain [0] "" "div"
      = generateDeterministicId fxDocC1 [0] "" "div" := by
  refine ⟨by decide, ?_, ?_⟩
  · exact (inspectElement_deterministic fxDocPlain [0] true false).2.2.1
      (inferredMetaOf fxDocPlain [0] fxPlainE) [0] fxPlainE (by decide) (by decide)
      (by decide) (by decide)
  · exact (inspectElement_deterministic fxDocPlain [0] true false).2.2.2
      fxDocC1 [0] "div" (by decide)

/-- An instrumented element whose instance marker is the non-numeric string
`"abc"`. -/
def fxBadInstE : ElementData :=
  { tagName := "BUTTON", id := "save-button", className := "btn", textContent := "Save",
    attrs := [("data-inspection-name", "SaveButton"), ("data-inspection-id", "save-button-0"),
              ("data-inspection-instance", "abc")],
    rectWidth := 100, rectHeight := 30 }

/-- body > button with the malformed instance marker. -/
def fxDocBadInst : DomTree := .node fxBody [.node fxBadInstE []]

/-- C3 counterexample: parsing an element whose instance marker is `"abc"`
yields metadata whose `instanceIndex` is `NaN` (the result of
`parseInt("abc", 10)`), not `0` as the claim states. -/
theorem parse_nonnumeric_instance_not_zero :
    (parseInspectionMetadata true fxDocBadInst [0]).map ComponentMetadata.instanceIndex
      = some JsNum.nan ∧
    ((parseInspectionMetadata true fxDocBadInst [0]).map ComponentMetadata.instanceIndex
        == some (JsNum.int 0)) = false := by
  decide

/-- C3 (amended): parsing never fails — it always returns a metadata record —
but the `|| "0"` fallback only covers a missing (or empty) instance marker,
which parses to `0`; a present non-empty, non-numeric marker value parses to
`NaN`. -/
theorem parse_instance_fallback (doc : DomTree) (q : DomPath) (e : ElementData)
    (he : dataAt doc q = some e) (nm cid : String)
    (hnm : getAttr e "data-inspection-name" = some nm) (hnm2 : nm ≠ "")
    (hcid : getAttr e "data-inspection-id" = some cid) (hcid2 : cid ≠ "") :
    (∀ s, getAttr e "data-inspection-instance" = some s → s ≠ "" →
      jsParseIntBase10 s = JsNum.nan →
      ∃ m, parseInspectionMetadata true doc q = some m ∧ m.instanceIndex = JsNum.nan) ∧
    (getAttr e "data-inspection-instance" = none →
      ∃ m, parseInspectionMetadata true doc q = some m ∧ m.instanceIndex = JsNum.int 0) := by
  have hmark : hasExplicitMarkers e = true := by
    simp [hasExplicitMarkers, jsTruthyStr, hnm, hcid, hnm2, hcid2]
  have hp := parse_explicit doc q e he nm cid hnm hcid hmark
  constructor
  · intro s hs hs2 hnan
    refine ⟨explicitMetaOf nm cid e, hp, ?_⟩
    show jsParseIntBase10 (jsStrOrElse (getAttr e "data-inspection-instance") "0") = JsNum.nan
    rw [hs]
    simp only [jsStrOrElse]
    rw [if_neg (by simpa using hs2)]
    exact hnan
  · intro habs
    refine ⟨explicitMetaOf nm cid e, hp, ?_⟩
    show jsParseIntBase10 (jsStrOrElse (getAttr e "data-inspection-instance") "0") = JsNum.int 0
    rw [habs]
    decide

/-- C3 witness: the amended statement applied to the `"abc"` fixture. -/
theorem parse_instance_fallback_witness :
    ∃ m, parseInspectionMetadata true fxDocBadInst [0] = some m ∧
      m.instanceIndex = JsNum.nan := by
  exact (parse_instance_fallback fxDocBadInst [0] fxBadInstE (by decide)
    "SaveButton" "save-button-0" (by decide) (by decide) (by decide) (by decide)).1
    "abc" (by decide) (by decide) (by decide)

/-- A props record with a single allow-listed string prop. -/
def fxProps : PropsRecord := fun k =>
  if k = "variant" then some (JsValue.str "primary") else none

/-- C2 (code divergence): the exported helpers of `inspection.ts` never read
`NODE_ENV` — the embedded functions have no development-mode parameter at all
because the source has no check.  Concretely, `getNextInstanceIndex` always
mutates the process-wide counter map, and `generateComponentId` /
`formatPropsSignature` always return live computed data rather than a neutral
default, in every mode. -/
theorem ungated_helpers_compute_live_data :
    getNextInstanceIndex "Button" ([] : CounterMap) = (0, [("Button", 1)]) ∧
    (([] : CounterMap) == [("Button", 1)]) = false ∧
    generateComponentId "Save Button" 0 = "save-button-0" ∧
    (generateComponentId "Save Button" 0 == "") = false ∧
    formatPropsSignature fxProps = "variant=primary" ∧
    (formatPropsSignature fxProps == "default") = false := by
  decide
